import Mathlib

/-!
Verification of the sumic compiler front end and WGSL back end
(src/sumic/src/{lexer,ast,parser,preprocessor,codegen}.rs).

The Rust code is embedded shallowly:
* `Token` mirrors the lexer token enum (src/sumic/src/lexer.rs).
* `AstNode` mirrors the AST enum (src/sumic/src/ast.rs).  The Rust
  `LiteralFloat(f64)` payload is modelled as the raw numeric lexeme the
  parser parsed it from; no theorem below depends on f64 arithmetic or
  on the formatting of non-integral floats.
* The recursive-descent parser (src/sumic/src/parser.rs) becomes a
  family of mutually recursive functions over an immutable token list
  and a cursor index, exactly as in the source (`current` is
  `tokens.get(cursor)`, `peek` is `tokens.get(cursor + 1)`, `advance`
  saturates at the buffer length).  A `fuel : Nat` argument makes the
  recursion structural; running out of fuel yields a distinguished
  error that no theorem relies on (every theorem supplies enough fuel).
* The include preprocessor (src/sumic/src/preprocessor.rs) is embedded
  over an abstract file system: paths are an arbitrary type with
  decidable equality, `canon` models `fs::canonicalize` (`none` means
  the canonicalization fails), and `files` returns the content of a
  file already decomposed by the include regex into plain-text chunks
  and `#include "..."` directives.  Relative-path joining is modelled
  by storing the resolved target path in the directive chunk.  The
  `anyhow` error values are modelled by the structured type `PError`.
* The WGSL generator (src/sumic/src/codegen.rs, `WgslGenerator`)
  becomes `wgsl_generate`, again with a fuel argument so that the
  nested recursion through child lists is structural.
-/

namespace Sumic

/-- Tokens of the sumic lexer (src/sumic/src/lexer.rs).  The `Comment`
variant is skipped by logos and never reaches the parser, so it is not
modelled. -/
inductive Token where
  | Struct | Fn | Return | If | Else | For | Break | Bang
  | LParen | RParen | LBrace | RBrace | LBracket | RBracket
  | Semicolon | Colon | Comma | Dot | Equals
  | Plus | Minus | Star | Slash | Greater | Less | DoubleEquals
  | Identifier (s : String)
  | Number (s : String)
  | DocComment (s : String)
deriving DecidableEq

/-- The derived Rust Debug rendering of a token, used by the parser in
its error messages (format strings of the form "Expected ..., got ..."). -/
def Token.dbg : Token → String
  | .Struct => "Struct"
  | .Fn => "Fn"
  | .Return => "Return"
  | .If => "If"
  | .Else => "Else"
  | .For => "For"
  | .Break => "Break"
  | .Bang => "Bang"
  | .LParen => "LParen"
  | .RParen => "RParen"
  | .LBrace => "LBrace"
  | .RBrace => "RBrace"
  | .LBracket => "LBracket"
  | .RBracket => "RBracket"
  | .Semicolon => "Semicolon"
  | .Colon => "Colon"
  | .Comma => "Comma"
  | .Dot => "Dot"
  | .Equals => "Equals"
  | .Plus => "Plus"
  | .Minus => "Minus"
  | .Star => "Star"
  | .Slash => "Slash"
  | .Greater => "Greater"
  | .Less => "Less"
  | .DoubleEquals => "DoubleEquals"
  | .Identifier s => "Identifier(\"" ++ s ++ "\")"
  | .Number s => "Number(\"" ++ s ++ "\")"
  | .DocComment s => "DocComment(\"" ++ s ++ "\")"

/-- Binary operators of the AST (src/sumic/src/ast.rs). -/
inductive BinaryOperator where
  | Add | Sub | Mul | Div | Equal | Less | Greater
deriving DecidableEq

/-- Unary operators of the AST (src/sumic/src/ast.rs). -/
inductive UnaryOperator where
  | Negate | Not
deriving DecidableEq

/-- The AST (src/sumic/src/ast.rs).  `LiteralFloat` carries the raw
numeric lexeme standing for the f64 the Rust code parses out of it. -/
inductive AstNode where
  | Program (nodes : List AstNode)
  | FunctionDecl (return_type : String) (name : String)
      (args : List (String × String)) (body : AstNode)
      (doc_string : Option String)
  | StructDecl (name : String) (fields : List (String × String))
      (doc_string : Option String)
  | Block (stmts : List AstNode)
  | VarDecl (type_name : String) (name : String) (value : Option AstNode)
  | ArrayDecl (type_name : String) (name : String) (size : Nat)
      (values : Option (List AstNode))
  | Assignment (target : AstNode) (value : AstNode)
  | ReturnStmt (expr : AstNode)
  | IfStmt (condition : AstNode) (then_branch : AstNode)
      (else_branch : Option AstNode)
  | ForStmt (init : AstNode) (condition : AstNode) (increment : AstNode)
      (body : AstNode)
  | BreakStmt
  | BinaryOp (left : AstNode) (op : BinaryOperator) (right : AstNode)
  | UnaryOp (op : UnaryOperator) (right : AstNode)
  | Call (func_name : String) (args : List AstNode)
  | SubscriptAccess (base : AstNode) (index : AstNode)
  | MemberAccess (base : AstNode) (member : String)
  | LiteralFloat (raw : String)
  | LiteralInt (i : Int)
  | Variable (name : String)

/-- Decimal digit value of a character, `none` for a non-digit. -/
def char_digit? (ch : Char) : Option Nat :=
  if ch = '0' then some 0
  else if ch = '1' then some 1
  else if ch = '2' then some 2
  else if ch = '3' then some 3
  else if ch = '4' then some 4
  else if ch = '5' then some 5
  else if ch = '6' then some 6
  else if ch = '7' then some 7
  else if ch = '8' then some 8
  else if ch = '9' then some 9
  else none

/-- Value of a nonempty run of decimal digits, `none` as soon as a
non-digit occurs. -/
def digits_value (l : List Char) (acc : Nat) : Option Nat :=
  match l with
  | [] => some acc
  | ch :: rest =>
    match char_digit? ch with
    | some d => digits_value rest (acc * 10 + d)
    | none => none

/-- Unsigned-decimal reading of a string: the numeric value when the
string is a nonempty run of decimal digits, `none` otherwise.  This is
what Rust `str::parse` computes on the lexemes the sumic lexer stores
in `Number` tokens (the lexer regex only ever produces digits and a
dot, so the signed and non-ASCII forms `str::parse` would also accept
never occur). -/
def read_digits? (s : String) : Option Nat :=
  match s.data with
  | [] => none
  | l => digits_value l 0

/-- `n.parse::<i64>().unwrap_or(0)` on a numeric lexeme: the parse
succeeds exactly when the digit string fits in an i64; otherwise (or
on any non-digit string, such as one containing a dot) the Rust code
falls back to 0. -/
def parse_i64 (s : String) : Int :=
  match read_digits? s with
  | some n => if n ≤ 9223372036854775807 then (n : Int) else 0
  | none => 0

/-- `n.parse::<usize>().unwrap_or(0)` on a numeric lexeme (usize is
64-bit on the supported targets). -/
def parse_usize (s : String) : Nat :=
  match read_digits? s with
  | some n => if n < 18446744073709551616 then n else 0
  | none => 0

/-- `n.contains('.')` on a numeric lexeme, as a fold over the string
data so that concrete instances compute. -/
def has_dot (s : String) : Bool :=
  s.data.contains '.'

/-- `Parser::advance` (src/sumic/src/parser.rs): the cursor moves one
token forward but never past the end of the buffer. -/
def advance (tks : List Token) (c : Nat) : Nat :=
  if c < tks.length then c + 1 else c

/-- `Parser::consume` (src/sumic/src/parser.rs): eat the expected token
or fail with the "Expected ..., got ..." message (got is the Debug form
of the current token, or "EOF" past the end). -/
def consume (tks : List Token) (c : Nat) (expected : Token) :
    Except String Nat :=
  if tks[c]? = some expected then .ok (advance tks c)
  else
    .error ("Expected " ++ expected.dbg ++ ", got " ++
      (match tks[c]? with
       | some t => t.dbg
       | none => "EOF"))

mutual

/-- `Parser::parse_statement` (src/sumic/src/parser.rs lines 252-344).
Order of cases as in the source: nested block, `if`, `return`, the
two-consecutive-identifiers declaration branch, and the fallback to an
expression or assignment statement. -/
def parse_statement (tks : List Token) (fuel : Nat) (c : Nat) :
    Except String (AstNode × Nat) :=
  match fuel with
  | 0 => .error "fuel exhausted"
  | fuel + 1 =>
    if tks[c]? = some Token.LBrace then
      parse_block tks fuel (advance tks c)
    else if tks[c]? = some Token.If then
      match consume tks (advance tks c) Token.LParen with
      | .error e => .error e
      | .ok c1 =>
        match parse_expression tks fuel c1 with
        | .error e => .error e
        | .ok (condition, c2) =>
          match consume tks c2 Token.RParen with
          | .error e => .error e
          | .ok c3 =>
            match parse_statement tks fuel c3 with
            | .error e => .error e
            | .ok (then_branch, c4) =>
              if tks[c4]? = some Token.Else then
                match parse_statement tks fuel (advance tks c4) with
                | .error e => .error e
                | .ok (else_b, c5) =>
                  .ok (.IfStmt condition then_branch (some else_b), c5)
              else
                .ok (.IfStmt condition then_branch none, c4)
    else if tks[c]? = some Token.Return then
      match parse_expression tks fuel (advance tks c) with
      | .error e => .error e
      | .ok (expr, c1) =>
        match consume tks c1 Token.Semicolon with
        | .error e => .error e
        | .ok c2 => .ok (.ReturnStmt expr, c2)
    else
      match tks[c]?, tks[c + 1]? with
      | some (.Identifier t_name), some (.Identifier v_name) =>
        -- Variable declaration branch: both identifiers are eaten and
        -- the source then only distinguishes the array form.
        let c2 := advance tks (advance tks c)
        if tks[c2]? = some Token.LBracket then
          let c3 := advance tks c2
          let size : Nat :=
            match tks[c3]? with
            | some (.Number n) => parse_usize n
            | _ => 0
          let c4 := advance tks c3
          match consume tks c4 Token.RBracket with
          | .error e => .error e
          | .ok c5 =>
            if tks[c5]? = some Token.Equals then
              match consume tks (advance tks c5) Token.LBrace with
              | .error e => .error e
              | .ok c6 =>
                match parse_array_vals tks fuel c6 with
                | .error e => .error e
                | .ok (vals, c7) =>
                  match consume tks c7 Token.RBrace with
                  | .error e => .error e
                  | .ok c8 =>
                    match consume tks c8 Token.Semicolon with
                    | .error e => .error e
                    | .ok c9 =>
                      .ok (.ArrayDecl t_name v_name size (some vals), c9)
            else
              match consume tks c5 Token.Semicolon with
              | .error e => .error e
              | .ok c6 => .ok (.ArrayDecl t_name v_name size none, c6)
        else if tks[c2]? = some Token.Equals then
          match parse_expression tks fuel (advance tks c2) with
          | .error e => .error e
          | .ok (v, c3) =>
            match consume tks c3 Token.Semicolon with
            | .error e => .error e
            | .ok c4 => .ok (.VarDecl t_name v_name (some v), c4)
        else
          match consume tks c2 Token.Semicolon with
          | .error e => .error e
          | .ok c3 => .ok (.VarDecl t_name v_name none, c3)
      | _, _ =>
        match parse_expression tks fuel c with
        | .error e => .error e
        | .ok (expr, c1) =>
          if tks[c1]? = some Token.Equals then
            match parse_expression tks fuel (advance tks c1) with
            | .error e => .error e
            | .ok (value, c2) =>
              match consume tks c2 Token.Semicolon with
              | .error e => .error e
              | .ok c3 => .ok (.Assignment expr value, c3)
          else
            match consume tks c1 Token.Semicolon with
            | .error e => .error e
            | .ok c2 => .ok (expr, c2)
termination_by structural fuel

/-- The statement loop of `Parser::parse_block`: keep parsing
statements while the current token is neither a closing brace nor EOF. -/
def parse_block_stmts (tks : List Token) (fuel : Nat) (c : Nat) :
    Except String (List AstNode × Nat) :=
  match fuel with
  | 0 => .error "fuel exhausted"
  | fuel + 1 =>
    if tks[c]? ≠ some Token.RBrace ∧ (tks[c]?).isSome then
      match parse_statement tks fuel c with
      | .error e => .error e
      | .ok (stmt, c1) =>
        match parse_block_stmts tks fuel c1 with
        | .error e => .error e
        | .ok (rest, c2) => .ok (stmt :: rest, c2)
    else
      .ok ([], c)
termination_by structural fuel

/-- `Parser::parse_block` (src/sumic/src/parser.rs): statements until
the closing brace, then the brace is consumed. -/
def parse_block (tks : List Token) (fuel : Nat) (c : Nat) :
    Except String (AstNode × Nat) :=
  match fuel with
  | 0 => .error "fuel exhausted"
  | fuel + 1 =>
    match parse_block_stmts tks fuel c with
    | .error e => .error e
    | .ok (stmts, c1) =>
      match consume tks c1 Token.RBrace with
      | .error e => .error e
      | .ok c2 => .ok (.Block stmts, c2)
termination_by structural fuel

/-- `Parser::parse_expression`: delegates to comparison parsing. -/
def parse_expression (tks : List Token) (fuel : Nat) (c : Nat) :
    Except String (AstNode × Nat) :=
  match fuel with
  | 0 => .error "fuel exhausted"
  | fuel + 1 => parse_comparison tks fuel c
termination_by structural fuel

/-- `Parser::parse_comparison`: a left-associative iteration over
`>`, `<` and `==`. -/
def parse_comparison (tks : List Token) (fuel : Nat) (c : Nat) :
    Except String (AstNode × Nat) :=
  match fuel with
  | 0 => .error "fuel exhausted"
  | fuel + 1 =>
    match parse_math tks fuel c with
    | .error e => .error e
    | .ok (left, c1) => parse_comparison_loop tks fuel left c1
termination_by structural fuel

/-- The comparison loop body of `Parser::parse_comparison`. -/
def parse_comparison_loop (tks : List Token) (fuel : Nat)
    (left : AstNode) (c : Nat) : Except String (AstNode × Nat) :=
  match fuel with
  | 0 => .error "fuel exhausted"
  | fuel + 1 =>
    match
      (match tks[c]? with
       | some Token.Greater => some BinaryOperator.Greater
       | some Token.Less => some BinaryOperator.Less
       | some Token.DoubleEquals => some BinaryOperator.Equal
       | _ => none) with
    | none => .ok (left, c)
    | some op =>
      match parse_math tks fuel (advance tks c) with
      | .error e => .error e
      | .ok (right, c1) =>
        parse_comparison_loop tks fuel (.BinaryOp left op right) c1
termination_by structural fuel

/-- `Parser::parse_math`: a left-associative iteration over `+`, `-`. -/
def parse_math (tks : List Token) (fuel : Nat) (c : Nat) :
    Except String (AstNode × Nat) :=
  match fuel with
  | 0 => .error "fuel exhausted"
  | fuel + 1 =>
    match parse_term tks fuel c with
    | .error e => .error e
    | .ok (left, c1) => parse_math_loop tks fuel left c1
termination_by structural fuel

/-- The additive loop body of `Parser::parse_math`. -/
def parse_math_loop (tks : List Token) (fuel : Nat) (left : AstNode)
    (c : Nat) : Except String (AstNode × Nat) :=
  match fuel with
  | 0 => .error "fuel exhausted"
  | fuel + 1 =>
    match
      (match tks[c]? with
       | some Token.Plus => some BinaryOperator.Add
       | some Token.Minus => some BinaryOperator.Sub
       | _ => none) with
    | none => .ok (left, c)
    | some op =>
      match parse_term tks fuel (advance tks c) with
      | .error e => .error e
      | .ok (right, c1) =>
        parse_math_loop tks fuel (.BinaryOp left op right) c1
termination_by structural fuel

/-- `Parser::parse_term`: a left-associative iteration over `*`, `/`. -/
def parse_term (tks : List Token) (fuel : Nat) (c : Nat) :
    Except String (AstNode × Nat) :=
  match fuel with
  | 0 => .error "fuel exhausted"
  | fuel + 1 =>
    match parse_postfixExpr tks fuel c with
    | .error e => .error e
    | .ok (left, c1) => parse_term_loop tks fuel left c1
termination_by structural fuel

/-- The multiplicative loop body of `Parser::parse_term`. -/
def parse_term_loop (tks : List Token) (fuel : Nat) (left : AstNode)
    (c : Nat) : Except String (AstNode × Nat) :=
  match fuel with
  | 0 => .error "fuel exhausted"
  | fuel + 1 =>
    match
      (match tks[c]? with
       | some Token.Star => some BinaryOperator.Mul
       | some Token.Slash => some BinaryOperator.Div
       | _ => none) with
    | none => .ok (left, c)
    | some op =>
      match parse_postfixExpr tks fuel (advance tks c) with
      | .error e => .error e
      | .ok (right, c1) =>
        parse_term_loop tks fuel (.BinaryOp left op right) c1
termination_by structural fuel

/-- The Rust source method parsing call, subscript and member suffixes
(src/sumic/src/parser.rs lines 398-435): a primary expression followed
by the suffix loop. -/
def parse_postfixExpr (tks : List Token) (fuel : Nat) (c : Nat) :
    Except String (AstNode × Nat) :=
  match fuel with
  | 0 => .error "fuel exhausted"
  | fuel + 1 =>
    match parse_primary tks fuel c with
    | .error e => .error e
    | .ok (expr, c1) => parse_postfix_loop tks fuel expr c1
termination_by structural fuel

/-- The suffix loop of the method above.  In the call case the argument
list is parsed and the closing parenthesis consumed before the callee
shape is inspected; a non-`Variable` callee then aborts with
"Expected identifier before call". -/
def parse_postfix_loop (tks : List Token) (fuel : Nat) (expr : AstNode)
    (c : Nat) : Except String (AstNode × Nat) :=
  match fuel with
  | 0 => .error "fuel exhausted"
  | fuel + 1 =>
    if tks[c]? = some Token.LParen then
      match parse_call_args tks fuel (advance tks c) with
      | .error e => .error e
      | .ok (args, c1) =>
        match consume tks c1 Token.RParen with
        | .error e => .error e
        | .ok c2 =>
          match expr with
          | .Variable name => parse_postfix_loop tks fuel (.Call name args) c2
          | _ => .error "Expected identifier before call"
    else if tks[c]? = some Token.LBracket then
      match parse_expression tks fuel (advance tks c) with
      | .error e => .error e
      | .ok (index, c1) =>
        match consume tks c1 Token.RBracket with
        | .error e => .error e
        | .ok c2 =>
          parse_postfix_loop tks fuel (.SubscriptAccess expr index) c2
    else if tks[c]? = some Token.Dot then
      match tks[advance tks c]? with
      | some (.Identifier s) =>
        parse_postfix_loop tks fuel (.MemberAccess expr s)
          (advance tks (advance tks c))
      | _ => .error "Expected member name"
    else
      .ok (expr, c)
termination_by structural fuel

/-- The call-argument loop inside the suffix loop: expressions until
the closing parenthesis, commas skipped when present. -/
def parse_call_args (tks : List Token) (fuel : Nat) (c : Nat) :
    Except String (List AstNode × Nat) :=
  match fuel with
  | 0 => .error "fuel exhausted"
  | fuel + 1 =>
    if tks[c]? = some Token.RParen then
      .ok ([], c)
    else
      match parse_expression tks fuel c with
      | .error e => .error e
      | .ok (arg, c1) =>
        let c2 := if tks[c1]? = some Token.Comma then advance tks c1 else c1
        match parse_call_args tks fuel c2 with
        | .error e => .error e
        | .ok (rest, c3) => .ok (arg :: rest, c3)
termination_by structural fuel

/-- The initializer-list loop of the array-declaration branch of
`Parser::parse_statement`: expressions until the closing brace, commas
skipped when present. -/
def parse_array_vals (tks : List Token) (fuel : Nat) (c : Nat) :
    Except String (List AstNode × Nat) :=
  match fuel with
  | 0 => .error "fuel exhausted"
  | fuel + 1 =>
    if tks[c]? = some Token.RBrace then
      .ok ([], c)
    else
      match parse_expression tks fuel c with
      | .error e => .error e
      | .ok (v, c1) =>
        let c2 := if tks[c1]? = some Token.Comma then advance tks c1 else c1
        match parse_array_vals tks fuel c2 with
        | .error e => .error e
        | .ok (rest, c3) => .ok (v :: rest, c3)
termination_by structural fuel

/-- `Parser::parse_primary` (src/sumic/src/parser.rs lines 437-462):
numbers (a lexeme containing a dot becomes a float literal, otherwise
an int literal with silent fallback to 0), identifiers, parenthesized
expressions. -/
def parse_primary (tks : List Token) (fuel : Nat) (c : Nat) :
    Except String (AstNode × Nat) :=
  match fuel with
  | 0 => .error "fuel exhausted"
  | fuel + 1 =>
    match tks[c]? with
    | some (.Number s) =>
      if has_dot s then .ok (.LiteralFloat s, advance tks c)
      else .ok (.LiteralInt (parse_i64 s), advance tks c)
    | some (.Identifier s) => .ok (.Variable s, advance tks c)
    | some Token.LParen =>
      match parse_expression tks fuel (advance tks c) with
      | .error e => .error e
      | .ok (expr, c1) =>
        match consume tks c1 Token.RParen with
        | .error e => .error e
        | .ok c2 => .ok (expr, c2)
    | some t => .error ("Unexpected token: " ++ t.dbg)
    | none => .error "Unexpected EOF"
termination_by structural fuel

end

/-!
## Preprocessor (src/sumic/src/preprocessor.rs)

The file system is abstract: `P` is the path type (Rust `PathBuf`),
`canon` models `fs::canonicalize` (with `none` for the error case) and
`files` models `fs::read_to_string` at a canonical path, the content
already decomposed by the include regex into plain text chunks and
`#include` directives.  A directive chunk stores the target path that
`base_dir.join(rel_path)` resolves to, so relative-path joining stays
inside the abstract file system.  The `Preprocessor` instance state
`included_files` is threaded explicitly; Rust errors discard it only
because no theorem below continues after a failed call.
-/

/-- One fragment of a source file after splitting at the
`#include "relative/path"` directives: either plain text or one
directive with its resolved target path. -/
inductive Chunk (P : Type) where
  | text (s : String)
  | inc (target : P)

/-- The abstract file system the preprocessor runs against. -/
structure FileSys (P : Type) where
  canon : P → Option P
  files : P → Option (List (Chunk P))

/-- The `anyhow` error values of the preprocessor, structured:
`depthLimit` is the "Include depth limit exceeded (cycle detected?)"
failure, `resolveFailed` the "Failed to resolve path" context and
`readFailed` the "Failed to read file" context.  `outOfFuel` is an
artifact of the shallow embedding (every theorem supplies enough
fuel). -/
inductive PError (P : Type) where
  | depthLimit (path : P)
  | resolveFailed (path : P)
  | readFailed (path : P)
  | outOfFuel

mutual

/-- `Preprocessor::process_recursive` (src/sumic/src/preprocessor.rs
lines 19-64): bail above depth 10, canonicalize, return the empty
string for an already-visited file, otherwise mark visited, read, and
splice the expansion of every directive into the surrounding text. -/
def process_recursive {P : Type} [DecidableEq P] (fs : FileSys P)
    (fuel : Nat) (included_files : List P) (file_path : P)
    (depth : Nat) : Except (PError P) (String × List P) :=
  match fuel with
  | 0 => .error .outOfFuel
  | fuel + 1 =>
    if depth > 10 then .error (.depthLimit file_path)
    else
      match fs.canon file_path with
      | none => .error (.resolveFailed file_path)
      | some canonical =>
        if canonical ∈ included_files then .ok ("", included_files)
        else
          match fs.files canonical with
          | none => .error (.readFailed canonical)
          | some chunks =>
            process_chunks fs fuel (included_files ++ [canonical])
              chunks depth
termination_by structural fuel

/-- The splice loop of `process_recursive`: concatenate plain text and
recursively expanded includes in order, threading the visited set. -/
def process_chunks {P : Type} [DecidableEq P] (fs : FileSys P)
    (fuel : Nat) (included_files : List P) (chunks : List (Chunk P))
    (depth : Nat) : Except (PError P) (String × List P) :=
  match fuel with
  | 0 => .error .outOfFuel
  | fuel + 1 =>
    match chunks with
    | [] => .ok ("", included_files)
    | .text t :: rest =>
      match process_chunks fs fuel included_files rest depth with
      | .error e => .error e
      | .ok (s, v) => .ok (t ++ s, v)
    | .inc target :: rest =>
      match process_recursive fs fuel included_files target (depth + 1) with
      | .error e => .error e
      | .ok (s, v) =>
        match process_chunks fs fuel v rest depth with
        | .error e => .error e
        | .ok (s2, v2) => .ok (s ++ s2, v2)
termination_by structural fuel

end

/-- `Preprocessor::process`: the public entry point starts the
recursion at depth 0 on the instance state `included_files` (which a
`Preprocessor::new` instance initializes to the empty list; note the
source never resets it between calls). -/
def process {P : Type} [DecidableEq P] (fs : FileSys P) (fuel : Nat)
    (included_files : List P) (file_path : P) :
    Except (PError P) (String × List P) :=
  process_recursive fs fuel included_files file_path 0

/-!
## WGSL generator (src/sumic/src/codegen.rs, `WgslGenerator`)

Brace characters inside generated text are written with their escape
codes.  The `LiteralFloat` case of the Rust code formats the f64 with
`{:.1}` when its fractional part is zero and with the default
formatting otherwise; on the lexeme model this is rendered as the
integer part followed by ".0" when all fraction digits are zero, and
as the raw lexeme otherwise (exact for every literal whose default f64
formatting round-trips the lexeme; no theorem below touches this
case). -/

/-- `WgslGenerator::map_type` (src/sumic/src/codegen.rs lines
159-172).  Note the source has arms for `vec2`, `vec3`, `vec4` and
`mat4` only; `mat2` and `mat3` fall into the catch-all arm. -/
def map_type (t : String) : String :=
  if t = "float" then "f32"
  else if t = "int" then "i32"
  else if t = "uint" then "u32"
  else if t = "bool" then "bool"
  else if t = "vec2" then "vec2<f32>"
  else if t = "vec3" then "vec3<f32>"
  else if t = "vec4" then "vec4<f32>"
  else if t = "mat4" then "mat4x4<f32>"
  else if t = "void" then ""
  else t

/-- `WgslGenerator::generate_op`. -/
def wgsl_generate_op (op : BinaryOperator) : String :=
  match op with
  | .Add => "+"
  | .Sub => "-"
  | .Mul => "*"
  | .Div => "/"
  | .Equal => "=="
  | .Less => "<"
  | .Greater => ">"

/-- `inc_code.trim_end_matches(';')`: drop every trailing semicolon. -/
def trim_end_semis (s : String) : String :=
  ⟨(s.data.reverse.dropWhile (fun ch => ch = ';')).reverse⟩

/-- Splitting a float lexeme at its dot: integer part and fraction
digits. -/
def split_at_dot (l : List Char) : List Char × List Char :=
  match l with
  | [] => ([], [])
  | ch :: rest =>
    if ch = '.' then ([], rest)
    else
      let p := split_at_dot rest
      (ch :: p.1, p.2)

/-- The float-literal formatting of the generators on the lexeme
model (see the section comment). -/
def render_float (raw : String) : String :=
  let p := split_at_dot raw.data
  if p.2.all (fun ch => ch = '0') then String.mk p.1 ++ ".0"
  else raw

mutual

/-- `WgslGenerator::generate` (src/sumic/src/codegen.rs lines
188-311), case for case. -/
def wgsl_generate (fuel : Nat) (ast : AstNode) : String :=
  match fuel with
  | 0 => ""
  | fuel + 1 =>
    match ast with
    | .Program nodes =>
      String.intercalate "\n\n"
        ((wgsl_generate_list fuel nodes).filter (fun s => !s.isEmpty))
    | .StructDecl name fields _ =>
      let field_str := String.intercalate "\n"
        (fields.map (fun tn => "    " ++ tn.2 ++ ": " ++ map_type tn.1 ++ ","))
      "struct " ++ name ++ " \x7b\n" ++ field_str ++ "\n\x7d;"
    | .FunctionDecl return_type name args body _ =>
      let mapped_ret := map_type return_type
      let ret_str := if mapped_ret.isEmpty then "" else "-> " ++ mapped_ret
      let arg_str := String.intercalate ", "
        (args.map (fun tn => tn.2 ++ ": " ++ map_type tn.1))
      "fn " ++ name ++ "(" ++ arg_str ++ ") " ++ ret_str ++ " " ++
        wgsl_generate fuel body
    | .Block stmts =>
      let inner := String.intercalate "\n"
        ((wgsl_generate_list fuel stmts).map (fun s => "    " ++ s))
      "\x7b\n" ++ inner ++ "\n\x7d"
    | .ReturnStmt expr => "return " ++ wgsl_generate fuel expr ++ ";"
    | .IfStmt condition then_branch else_branch =>
      "if (" ++ wgsl_generate fuel condition ++ ") " ++
        wgsl_generate fuel then_branch ++
        (match else_branch with
         | some else_b => " else " ++ wgsl_generate fuel else_b
         | none => "")
    | .ForStmt init condition increment body =>
      let inc_clean := trim_end_semis (wgsl_generate fuel increment)
      "for (" ++ wgsl_generate fuel init ++ " " ++
        wgsl_generate fuel condition ++ "; " ++ inc_clean ++ ") " ++
        wgsl_generate fuel body
    | .BreakStmt => "break;"
    | .VarDecl type_name name value =>
      let mapped_type := map_type type_name
      match value with
      | some val =>
        "var " ++ name ++ ": " ++ mapped_type ++ " = " ++
          wgsl_generate fuel val ++ ";"
      | none => "var " ++ name ++ ": " ++ mapped_type ++ ";"
    | .ArrayDecl type_name name size values =>
      let mapped_type := map_type type_name
      let type_str := "array<" ++ mapped_type ++ ", " ++ toString size ++ ">"
      match values with
      | some vals =>
        "var " ++ name ++ ": " ++ type_str ++ " = " ++ type_str ++ "(" ++
          String.intercalate ", " (wgsl_generate_list fuel vals) ++ ");"
      | none => "var " ++ name ++ ": " ++ type_str ++ ";"
    | .Assignment target value =>
      wgsl_generate fuel target ++ " = " ++ wgsl_generate fuel value ++ ";"
    | .BinaryOp left op right =>
      "(" ++ wgsl_generate fuel left ++ " " ++ wgsl_generate_op op ++
        " " ++ wgsl_generate fuel right ++ ")"
    | .UnaryOp op right =>
      "(" ++ (match op with | .Negate => "-" | .Not => "!") ++
        wgsl_generate fuel right ++ ")"
    | .Call func_name args =>
      let arg_str := String.intercalate ", " (wgsl_generate_list fuel args)
      if (["vec2", "vec3", "vec4"] : List String).contains func_name then
        func_name ++ "<f32>(" ++ arg_str ++ ")"
      else
        func_name ++ "(" ++ arg_str ++ ")"
    | .MemberAccess base member => wgsl_generate fuel base ++ "." ++ member
    | .SubscriptAccess base index =>
      wgsl_generate fuel base ++ "[" ++ wgsl_generate fuel index ++ "]"
    | .LiteralFloat raw => render_float raw
    | .LiteralInt i => toString i
    | .Variable name =>
      if name = "iTime" then "u.time"
      else if name = "iResolution" then "vec3<f32>(u.resolution, 1.0)"
      else if name = "iMouse" then "u.mouse"
      else name
termination_by structural fuel

/-- The `.iter().map(|n| self.generate(n))` traversals of
`WgslGenerator::generate`, as one fuel-indexed list map. -/
def wgsl_generate_list (fuel : Nat) (nodes : List AstNode) : List String :=
  match fuel with
  | 0 => []
  | fuel + 1 =>
    match nodes with
    | [] => []
    | n :: rest => wgsl_generate fuel n :: wgsl_generate_list fuel rest
termination_by structural fuel

end

/-! ## Helper lemmas and concrete instances -/

/-- Appending to the empty string is the identity. -/
theorem string_empty_append (s : String) : "" ++ s = s := by
  cases s
  rfl

/-- Appending the empty string is the identity. -/
theorem string_append_empty (s : String) : s ++ "" = s := by
  cases s with
  | mk d => exact congrArg String.mk (List.append_nil d)

/-- A file system with two distinct files, each holding exactly one
include of the other. -/
def mutualFS {P : Type} [DecidableEq P] (a b : P) : FileSys P :=
  { canon := some,
    files := fun p =>
      if p = a then some [Chunk.inc b]
      else if p = b then some [Chunk.inc a]
      else none }

/-- A file system whose files are all unreadable (enough for facts
about already-visited paths, which are never read). -/
def trivFS : FileSys String := { canon := some, files := fun _ => none }

/-- A linear chain of n+1 distinct files numbered 0..n: file i < n
holds exactly one include of file i+1, file n holds the plain text
"end". -/
def chainFS (n : Nat) : FileSys Nat :=
  { canon := some,
    files := fun i =>
      if i < n then some [Chunk.inc (i + 1)]
      else if i = n then some [Chunk.text "end"]
      else none }

/-- A single readable file "a.sl" with plain content "hello" and no
includes. -/
def single_file_fs : FileSys String :=
  { canon := some,
    files := fun p => if p = "a.sl" then some [Chunk.text "hello"] else none }

/-- In the chain file system, expanding file n (the plain-text leaf) at
depth n succeeds when n is within the depth limit. -/
theorem chain_base (n f : Nat) (hd : n ≤ 10) :
    process_recursive (chainFS n) (f + 3) (List.range n) n n =
      .ok ("end", List.range (n + 1)) := by
  have hc : (chainFS n).canon = some := rfl
  have hf : (chainFS n).files n = some [Chunk.text "end"] := by simp [chainFS]
  rw [process_recursive, hc]
  simp [List.mem_range, show ¬n > 10 by omega, hf, process_chunks,
    ← List.range_succ]

/-- In the chain file system, expanding file i < n at depth i ≤ 10
reduces to expanding file i+1 at depth i+1. -/
theorem chain_step (n i f : Nat) (hlt : i < n) (hd : i ≤ 10) :
    process_recursive (chainFS n) (f + 3) (List.range i) i i =
      process_recursive (chainFS n) (f + 1) (List.range (i + 1)) (i + 1) (i + 1) := by
  have hc : (chainFS n).canon = some := rfl
  have hf : (chainFS n).files i = some [Chunk.inc (i + 1)] := by simp [chainFS, hlt]
  rw [process_recursive, hc]
  simp only [show ¬i > 10 by omega, if_false, ite_false, reduceIte,
    List.mem_range, lt_irrefl, hf, ← List.range_succ]
  rw [process_chunks]
  cases hres : process_recursive (chainFS n) (f + 1) (List.range (i + 1)) (i + 1) (i + 1) with
  | error e => simp [hres]
  | ok sv =>
    cases sv with
    | mk s v => simp [hres, process_chunks, string_append_empty]

/-- In a chain longer than 10 links, expanding file 10 at depth 10
fails with the depth-limit error naming file 11: the include of file
11 arrives at depth 11 > 10. -/
theorem chain_limit (n f : Nat) (hn : 10 < n) :
    process_recursive (chainFS n) (f + 3) (List.range 10) 10 10 =
      .error (.depthLimit 11) := by
  have hc : (chainFS n).canon = some := rfl
  have hf : (chainFS n).files 10 = some [Chunk.inc 11] := by simp [chainFS, hn]
  rw [process_recursive, hc]
  simp [List.mem_range, hf, process_chunks, process_recursive]

/-- A chain of n+1 distinct files with n ≤ 10 expands successfully to
the leaf text, whatever suffix of the chain is being expanded. -/
theorem chain_ok (n : Nat) (hn : n ≤ 10) :
    ∀ k i, i + k = n →
      process_recursive (chainFS n) (2 * k + 3) (List.range i) i i =
        .ok ("end", List.range (n + 1)) := by
  intro k
  induction k with
  | zero =>
    intro i hi
    obtain rfl : i = n := by omega
    exact chain_base _ 0 hn
  | succ k ih =>
    intro i hi
    have hstep := chain_step n i (2 * k + 2) (by omega) (by omega)
    have hih := ih (i + 1) (by omega)
    exact hstep.trans hih

/-- A chain of more than 11 distinct files fails with the depth-limit
error, whatever suffix of the chain starting no deeper than 10 is
being expanded. -/
theorem chain_err (n : Nat) (hn : 10 < n) :
    ∀ k i, i + k = 10 →
      process_recursive (chainFS n) (2 * k + 3) (List.range i) i i =
        .error (.depthLimit 11) := by
  intro k
  induction k with
  | zero =>
    intro i hi
    obtain rfl : i = 10 := by omega
    exact chain_limit n 0 hn
  | succ k ih =>
    intro i hi
    have hstep := chain_step n i (2 * k + 2) (by omega) (by omega)
    have hih := ih (i + 1) (by omega)
    exact hstep.trans hih

/-! ## Claims -/

/-- C1, counterexample to the claim as stated.  The claim says a
statement opening with two consecutive identifiers where the next
token is `(` is parsed as a function call; on the token stream of
`foo bar(1);` the parser instead eats both identifiers as a
declaration head and fails when the statement does not continue like a
declaration.  Likewise a following `.` fails, and a following `=`
yields an initialized VarDecl rather than an assignment. -/
theorem claim1_counterexample :
    parse_statement
      [Token.Identifier "foo", Token.Identifier "bar", Token.LParen,
        Token.Number "1", Token.RParen, Token.Semicolon] 20 0 =
      .error "Expected Semicolon, got LParen" ∧
    parse_statement
      [Token.Identifier "foo", Token.Identifier "bar", Token.Dot,
        Token.Identifier "z", Token.Semicolon] 20 0 =
      .error "Expected Semicolon, got Dot" ∧
    parse_statement
      [Token.Identifier "foo", Token.Identifier "bar", Token.Equals,
        Token.Number "2", Token.Semicolon] 20 0 =
      .ok (.VarDecl "foo" "bar" (some (.LiteralInt 2)), 5) :=
  ⟨rfl, rfl, rfl⟩

/-- C1 (amended): whenever a statement opens with two consecutive
identifier tokens, parse_statement takes the declaration branch
unconditionally — every successful parse yields a VarDecl or an
ArrayDecl, with no exception cases for a following `(`, bare `=` or
`.`. -/
theorem claim1_theorem (tks : List Token) (fuel : Nat) (c : Nat)
    (t v : String) (node : AstNode) (c1 : Nat)
    (h1 : tks[c]? = some (Token.Identifier t))
    (h2 : tks[c + 1]? = some (Token.Identifier v))
    (hp : parse_statement tks fuel c = .ok (node, c1)) :
    (∃ ty nm val, node = AstNode.VarDecl ty nm val) ∨
      (∃ ty nm sz vals, node = AstNode.ArrayDecl ty nm sz vals) := by
  cases fuel with
  | zero => simp [parse_statement] at hp
  | succ fuel =>
    simp only [parse_statement, h1, h2, Option.some.injEq, reduceCtorEq,
      if_false, if_true, reduceIte] at hp
    repeat' split at hp
    all_goals try exact (Except.noConfusion hp)
    all_goals cases hp
    all_goals first
      | exact Or.inl ⟨_, _, _, rfl⟩
      | exact Or.inr ⟨_, _, _, _, rfl⟩

/-- Witness for C1 at the token stream of `int x;`. -/
theorem claim1_witness :
    (∃ ty nm val, AstNode.VarDecl "int" "x" none = AstNode.VarDecl ty nm val) ∨
      (∃ ty nm sz vals,
        AstNode.VarDecl "int" "x" none = AstNode.ArrayDecl ty nm sz vals) :=
  claim1_theorem [Token.Identifier "int", Token.Identifier "x", Token.Semicolon]
    9 0 "int" "x" (AstNode.VarDecl "int" "x" none) 3 rfl rfl rfl

/-- C2, counterexample to the claim as stated.  The claim says two
files mutually including each other fail with a CycleOrDepthError;
processing the concrete pair a.sl ↔ b.sl instead succeeds, the nested
re-inclusion of a.sl expanding to the empty string. -/
theorem claim2_counterexample :
    process (mutualFS "a.sl" "b.sl") 9 [] "a.sl" = .ok ("", ["a.sl", "b.sl"]) := rfl

/-- C2 (amended): for every pair of distinct files that each contain
an include of the other, process succeeds with no error — the visited
set cuts the cycle at the nested re-inclusion (which expands to the
empty string) long before the recursion depth could exceed 10. -/
theorem claim2_theorem {P : Type} [DecidableEq P] (a b : P) (h : a ≠ b) :
    process (mutualFS a b) 9 [] a = .ok ("", [a, b]) := by
  simp [process, process_recursive, process_chunks, mutualFS, h, h.symm]

/-- Witness for C2 at the concrete pair a.sl ↔ b.sl. -/
theorem claim2_witness :
    process (mutualFS "a.sl" "b.sl") 9 [] "a.sl" = .ok ("", ["a.sl", "b.sl"]) :=
  claim2_theorem "a.sl" "b.sl" (by decide)

/-- C3: expanding a file whose canonical path is already in the
visited set, at depth at most 10, yields the empty string with no
error and leaves the visited set unchanged; and inside a chunk list,
such an include directive contributes the empty string in place while
the rest of the including file is expanded exactly as without the
directive. -/
theorem claim3_theorem :
    (∀ (P : Type) [DecidableEq P] (fs : FileSys P) (visited : List P)
        (p canonical : P) (depth fuel : Nat),
      depth ≤ 10 → fs.canon p = some canonical → canonical ∈ visited →
        process_recursive fs (fuel + 1) visited p depth = .ok ("", visited)) ∧
    (∀ (P : Type) [DecidableEq P] (fs : FileSys P) (visited : List P)
        (target canonical : P) (rest : List (Chunk P)) (depth fuel : Nat),
      depth + 1 ≤ 10 → fs.canon target = some canonical → canonical ∈ visited →
        process_chunks fs (fuel + 2) visited (Chunk.inc target :: rest) depth =
          process_chunks fs (fuel + 1) visited rest depth) := by
  constructor
  · intro P _ fs visited p canonical depth fuel hd hc hv
    simp [process_recursive, hc, hv, show ¬depth > 10 by omega]
  · intro P _ fs visited target canonical rest depth fuel hd hc hv
    have hrec : process_recursive fs (fuel + 1) visited target (depth + 1) =
        .ok ("", visited) := by
      simp [process_recursive, hc, hv, show ¬depth + 1 > 10 by omega]
    show process_chunks fs (fuel + 1 + 1) visited (Chunk.inc target :: rest) depth = _
    rw [process_chunks]
    simp only [hrec]
    cases hrest : process_chunks fs (fuel + 1) visited rest depth with
    | error e => rfl
    | ok sv => cases sv with | mk s v => simp [string_empty_append]

/-- Witness for C3: a visited file expands to the empty string, and an
include of it inside a chunk list is the identity on the rest. -/
theorem claim3_witness :
    process_recursive trivFS 1 ["x.sl"] "x.sl" 0 = .ok ("", ["x.sl"]) ∧
    process_chunks trivFS 2 ["x.sl"] [Chunk.inc "x.sl"] 0 =
      process_chunks trivFS 1 ["x.sl"] [] 0 :=
  ⟨claim3_theorem.1 String trivFS ["x.sl"] "x.sl" "x.sl" 0 0 (by omega) rfl (by simp),
   claim3_theorem.2 String trivFS ["x.sl"] "x.sl" "x.sl" [] 0 0 (by omega) rfl (by simp)⟩

/-- C4: on a chain of pairwise-distinct files each including the next,
process fails exactly when the include recursion depth exceeds 10: a
chain nested to depth n ≤ 10 expands successfully to the leaf text
(an `.ok` result, distinct from the silent empty-string re-inclusion
value), while a chain nested deeper fails with the structured
depth-limit error. -/
theorem claim4_theorem (n : Nat) :
    (n ≤ 10 →
      process (chainFS n) (2 * n + 3) [] 0 = .ok ("end", List.range (n + 1))) ∧
    (10 < n → process (chainFS n) 23 [] 0 = .error (.depthLimit 11)) := by
  constructor
  · intro hn
    have := chain_ok n hn n 0 (by omega)
    simpa [process] using this
  · intro hn
    have := chain_err n hn 10 0 (by omega)
    simpa [process] using this

/-- Witness for C4 at the boundary: depth 10 succeeds, depth 11 fails. -/
theorem claim4_witness :
    process (chainFS 10) 23 [] 0 = .ok ("end", List.range 11) ∧
    process (chainFS 11) 23 [] 0 = .error (.depthLimit 11) :=
  ⟨(claim4_theorem 10).1 (by omega), (claim4_theorem 11).2 (by omega)⟩

/-- C5, counterexample to the claim as stated.  `float x = 1;` parses
to a VarDecl over the integer literal 1 (the lexeme has no dot), and
the WGSL generator renders the initializer with integer formatting:
the output is `var x: f32 = 1;`, not the claimed float-formatted
`var x: f32 = 1.0;`. -/
theorem claim5_counterexample :
    parse_statement
      [Token.Identifier "float", Token.Identifier "x", Token.Equals,
        Token.Number "1", Token.Semicolon] 20 0 =
      .ok (.VarDecl "float" "x" (some (.LiteralInt 1)), 5) ∧
    wgsl_generate 9 (.VarDecl "float" "x" (some (.LiteralInt 1))) =
      "var x: f32 = 1;" ∧
    ("var x: f32 = 1;" : String) ≠ "var x: f32 = 1.0;" :=
  ⟨rfl, rfl, by decide⟩

/-- C5 (amended): the source statement `float x = 1;` parses to a
VarDecl with type name "float" and initializer LiteralInt 1, and the
WGSL generator renders it as `var x: f32 = 1;` — the type maps to f32
while the integer literal keeps its integer formatting. -/
theorem claim5_theorem :
    parse_statement
      [Token.Identifier "float", Token.Identifier "x", Token.Equals,
        Token.Number "1", Token.Semicolon] 20 0 =
      .ok (.VarDecl "float" "x" (some (.LiteralInt 1)), 5) ∧
    wgsl_generate 9 (.VarDecl "float" "x" (some (.LiteralInt 1))) =
      "var x: f32 = 1;" :=
  ⟨rfl, rfl⟩

/-- C6, counterexample to the claim as stated: the WGSL type map has
no arm for mat2 or mat3 — both fall through unchanged instead of
becoming parametrized square matrix types. -/
theorem claim6_counterexample :
    map_type "mat2" = "mat2" ∧ map_type "mat3" = "mat3" ∧
    ("mat2" : String) ≠ "mat2x2<f32>" ∧ ("mat3" : String) ≠ "mat3x3<f32>" :=
  ⟨rfl, rfl, by decide, by decide⟩

/-- C6 (amended): the WGSL type mapping sends float to f32, int to
i32, uint to u32, bool to bool, vec2/vec3/vec4 to the parametrized
vector types and mat4 to mat4x4, maps void to the empty string (hence
an empty return clause), and passes every other name — including mat2
and mat3 — through unchanged; the map is what variable declarations
render their type with. -/
theorem claim6_theorem :
    map_type "float" = "f32" ∧ map_type "int" = "i32" ∧
    map_type "uint" = "u32" ∧ map_type "bool" = "bool" ∧
    map_type "vec2" = "vec2<f32>" ∧ map_type "vec3" = "vec3<f32>" ∧
    map_type "vec4" = "vec4<f32>" ∧ map_type "mat4" = "mat4x4<f32>" ∧
    map_type "void" = "" ∧
    (∀ t : String,
      t ∉ (["float", "int", "uint", "bool", "vec2", "vec3", "vec4", "mat4",
        "void"] : List String) → map_type t = t) ∧
    (∀ (fuel : Nat) (t nm : String),
      wgsl_generate (fuel + 1) (.VarDecl t nm none) =
        "var " ++ nm ++ ": " ++ map_type t ++ ";") := by
  refine ⟨rfl, rfl, rfl, rfl, rfl, rfl, rfl, rfl, rfl, ?_, ?_⟩
  · intro t ht
    simp only [List.mem_cons, List.mem_singleton, not_or] at ht
    obtain ⟨h1, h2, h3, h4, h5, h6, h7, h8, h9, -⟩ := ht
    simp [map_type, h1, h2, h3, h4, h5, h6, h7, h8, h9]
  · intro fuel t nm
    rfl

/-- Witness for C6: mat2 is not in the mapped set and passes through,
and a variable declaration renders through the type map. -/
theorem claim6_witness :
    map_type "mat2" = "mat2" ∧
    wgsl_generate 1 (.VarDecl "float" "y" none) =
      "var " ++ "y" ++ ": " ++ map_type "float" ++ ";" :=
  ⟨claim6_theorem.2.2.2.2.2.2.2.2.2.1 "mat2" (by decide),
   claim6_theorem.2.2.2.2.2.2.2.2.2.2 0 "float" "y"⟩

/-- C7, counterexample to the claim as stated: calls named mat2 (or
float, int, uint) are not rewritten into parametrized constructor
calls — their names pass through unchanged. -/
theorem claim7_counterexample :
    wgsl_generate 9 (.Call "mat2" []) = "mat2()" ∧
    wgsl_generate 9 (.Call "float" [.LiteralInt 1]) = "float(1)" ∧
    ("mat2()" : String) ≠ "mat2x2<f32>()" :=
  ⟨rfl, rfl, by decide⟩

/-- C7 (amended): exactly the calls named vec2, vec3 or vec4 are
rewritten into explicitly parametrized constructor calls
(`name<f32>(...)`); every other call — including mat2/mat3/mat4 and
float/int/uint — passes through with its name unchanged. -/
theorem claim7_theorem :
    (∀ (fuel : Nat) (f : String) (args : List AstNode),
      f ∈ (["vec2", "vec3", "vec4"] : List String) →
        wgsl_generate (fuel + 1) (.Call f args) =
          f ++ "<f32>(" ++
            String.intercalate ", " (wgsl_generate_list fuel args) ++ ")") ∧
    (∀ (fuel : Nat) (f : String) (args : List AstNode),
      f ∉ (["vec2", "vec3", "vec4"] : List String) →
        wgsl_generate (fuel + 1) (.Call f args) =
          f ++ "(" ++
            String.intercalate ", " (wgsl_generate_list fuel args) ++ ")") := by
  constructor
  · intro fuel f args hf
    simp [wgsl_generate, List.contains, List.elem_eq_mem, hf]
  · intro fuel f args hf
    simp [wgsl_generate, List.contains, List.elem_eq_mem, hf]

/-- Witness for C7 at vec3 (rewritten) and mat2 (passed through). -/
theorem claim7_witness :
    wgsl_generate 1 (.Call "vec3" []) =
      "vec3" ++ "<f32>(" ++
        String.intercalate ", " (wgsl_generate_list 0 []) ++ ")" ∧
    wgsl_generate 1 (.Call "mat2" []) =
      "mat2" ++ "(" ++
        String.intercalate ", " (wgsl_generate_list 0 []) ++ ")" :=
  ⟨claim7_theorem.1 0 "vec3" [] (by decide),
   claim7_theorem.2 0 "mat2" [] (by decide)⟩

/-- C8: the claim (and the spec) say a well-formed C-style
`for (init; condition; increment) body` statement parses to a ForStmt
and `break;` to a BreakStmt.  The parser has no case for the For or
Break tokens at all: on the token stream of
`for (int i = 0; i < 3; i = i + 1) break;` the statement falls
through to expression parsing and aborts with "Unexpected token: For",
and `break;` aborts with "Unexpected token: Break" — even though the
lexer produces both keywords, the AST declares ForStmt/BreakStmt, and
both code generators render them. -/
theorem claim8_theorem :
    parse_statement
      [Token.For, Token.LParen, Token.Identifier "int", Token.Identifier "i",
        Token.Equals, Token.Number "0", Token.Semicolon, Token.Identifier "i",
        Token.Less, Token.Number "3", Token.Semicolon, Token.Identifier "i",
        Token.Equals, Token.Identifier "i", Token.Plus, Token.Number "1",
        Token.RParen, Token.Break, Token.Semicolon] 30 0 =
      .error "Unexpected token: For" ∧
    parse_statement [Token.Break, Token.Semicolon] 9 0 =
      .error "Unexpected token: Break" :=
  ⟨rfl, rfl⟩

/-- C9: the claim (and the spec) say the visited set is scoped to one
top-level process invocation, so a second process call on the same
instance should behave like a call on a fresh instance.  The code
keeps `included_files` on the Preprocessor instance and never clears
it: after a first call expands "a.sl" to "hello" (leaving the path in
the instance state), a second call on the same instance returns the
empty string instead. -/
theorem claim9_theorem :
    process single_file_fs 3 [] "a.sl" = .ok ("hello", ["a.sl"]) ∧
    process single_file_fs 3 ["a.sl"] "a.sl" = .ok ("", ["a.sl"]) ∧
    ("" : String) ≠ "hello" :=
  ⟨rfl, rfl, by decide⟩

/-- C10: in the call case of the suffix loop, the argument list is
parsed and the closing parenthesis consumed, and then a callee that is
not a plain Variable node aborts parsing with "Expected identifier
before call"; hence Call nodes are only ever built from a bare
identifier callee (visible in the branch structure: the only
non-error continuation is the Variable case). -/
theorem claim10_theorem (tks : List Token) (fuel : Nat) (expr : AstNode)
    (c : Nat) (args : List AstNode) (c1 : Nat)
    (h1 : tks[c]? = some Token.LParen)
    (h2 : parse_call_args tks fuel (advance tks c) = .ok (args, c1))
    (h3 : tks[c1]? = some Token.RParen)
    (h4 : ∀ name, expr ≠ AstNode.Variable name) :
    parse_postfix_loop tks (fuel + 1) expr c =
      .error "Expected identifier before call" := by
  cases expr with
  | Variable name => exact absurd rfl (h4 name)
  | _ => simp [parse_postfix_loop, h1, h2, consume, h3]

/-- Witness for C10 at the token stream of `a.b(1)`: the callee is a
member access, so parsing aborts with the fixed error. -/
theorem claim10_witness :
    parse_postfix_loop
      [Token.Identifier "a", Token.Dot, Token.Identifier "b", Token.LParen,
        Token.Number "1", Token.RParen] 18
      (AstNode.MemberAccess (AstNode.Variable "a") "b") 3 =
      .error "Expected identifier before call" :=
  claim10_theorem _ 17 _ 3 [AstNode.LiteralInt 1] 5 rfl rfl rfl
    (fun _ h => AstNode.noConfusion h)

end Sumic
